import Mathlib

/-!
Verification of the AIM resource model (`aim/api/resource.py`).

The embedding models a resource instance's `__dict__` as an association
list from attribute names to values, a resource type as its declared
attribute schema plus the default mapping its concrete `__init__` passes
to `ResourceBase.__init__`, and construction / DN decoding as functions
returning `Except`.
-/

/-- A Python attribute value as used by the resource classes: strings,
booleans, numbers, lists (the resource schemas use lists of names/strings;
the only structured-record list, `static_paths`, occurs only as the empty
list in this module), and `None` (`Value.none`). -/
inductive Value where
  | str (s : String)
  | bool (b : Bool)
  | num (n : Nat)
  | list (l : List String)
  | none
deriving DecidableEq, Repr

/-- An instance's `__dict__` (also a `defaults` or `kwargs` dict): an
association list; lookups take the first matching key, and dicts built by
the model never repeat a key. -/
abbrev AttrMap := List (String × Value)

/-- Dictionary lookup (`d[k]` / `d.get(k)` distinguished via `Option`). -/
def alookup : AttrMap → String → Option Value
  | [], _ => Option.none
  | (k', v) :: m, k => if k' = k then some v else alookup m k

example : alookup [("a", Value.num 1), ("b", Value.none)] "b" = some Value.none := by decide
example : alookup [("a", Value.num 1)] "c" = Option.none := by decide

/-- `kwargs.get(k)`: `None` both when the key is absent and when it maps to
`None`. -/
def kwGet (kwargs : AttrMap) (k : String) : Value :=
  (alookup kwargs k).getD Value.none

/-- The last binding of `k` in a list of `(key, value)` assignments wins, as
when the assignments are applied to a dict in order. -/
def lookupLast : AttrMap → String → Option Value
  | [], _ => Option.none
  | (k', v) :: m, k =>
    match lookupLast m k with
    | some w => some w
    | Option.none => if k' = k then some v else Option.none

/-- `setattr(obj, k, v)` on the instance dict: replace the binding of `k`
(dicts built here never repeat a key), else add it. -/
def setattr : AttrMap → String → Value → AttrMap
  | [], k, v => [(k, v)]
  | (k', w) :: m, k, v => if k' = k then (k, v) :: m else (k', w) :: setattr m k v

/-- Perform a list of `setattr` assignments in order. -/
def applyAll (m : AttrMap) (tr : List (String × Value)) : AttrMap :=
  tr.foldl (fun acc p => setattr acc p.1 p.2) m

/-- Python truthiness, for `if kwargs.pop('_set_default', True):`. -/
def truthy : Value → Bool
  | Value.str s => s ≠ ""
  | Value.bool b => b
  | Value.num n => n ≠ 0
  | Value.list l => l ≠ []
  | Value.none => false

/-- Python dict equality, as `ResourceBase.__eq__` compares
`self.__dict__ == other.__dict__`: same keys, equal values. -/
def dictEq (a b : AttrMap) : Bool :=
  a.all (fun p => decide (alookup b p.1 = some p.2)) &&
    b.all (fun p => decide (alookup a p.1 = some p.2))

/-- The keys of a dict are pairwise distinct (true of every real Python
dict, and of every dict the model builds). -/
def KeyNodup (m : AttrMap) : Prop := (m.map Prod.fst).Nodup

instance (m : AttrMap) : Decidable (KeyNodup m) := by
  unfold KeyNodup; infer_instance

/-- The errors construction and DN decoding can raise:
`exc.IdentityAttributesMissing`, `exc.AciResourceDefinitionError` and
`exc.InvalidDNForAciResource`. -/
inductive ResourceError where
  | identityAttributesMissing (attrs : List String)
  | aciResourceDefinition (attr : String) (klass : String)
  | invalidDN (dn : String) (cls : String)
deriving DecidableEq, Repr

/-- A resource type: its class name, the three declared ordered attribute-key
mappings (`t.identity`, `t.other`, `t.db` declare ordered mappings; only
their keys matter here), the `defaults` dict the concrete `__init__` passes
to `ResourceBase.__init__`, whether the class extends `AciResourceBase`,
whether the class defines `_tree_parent` / `_aci_mo_name` (with the latter's
value), and whether the class overrides `__eq__` to compare by `id`
(only `Agent` does). -/
structure ResourceType where
  name : String
  identity_attributes : List String
  other_attributes : List String
  db_attributes : List String := []
  defaults : AttrMap
  isAci : Bool := false
  has_tree_parent : Bool := true
  has_aci_mo_name : Bool := true
  aci_mo_name : String := ""
  eqById : Bool := false
deriving DecidableEq, Repr

/-- `ResourceBase.attributes()`: identity keys ++ other keys ++ db keys. -/
def attributes (rt : ResourceType) : List String :=
  rt.identity_attributes ++ rt.other_attributes ++ rt.db_attributes

/-- The `unset_attr` list of `ResourceBase.__init__`: identity attributes
with `kwargs.get(k) is None` and `k not in defaults`. -/
def unsetOf (rt : ResourceType) (kwargs : AttrMap) : List String :=
  rt.identity_attributes.filter fun k =>
    decide (kwGet kwargs k = Value.none) && (alookup rt.defaults k).isNone

/-- The defaults dict after `defaults.setdefault('display_name', '')`, done
when `display_name` is one of the other attributes. -/
def effDefaults (rt : ResourceType) : AttrMap :=
  if "display_name" ∈ rt.other_attributes then
    if (alookup rt.defaults "display_name").isSome then rt.defaults
    else rt.defaults ++ [("display_name", Value.str "")]
  else rt.defaults

/-- `ResourceBase.__init__`, statement by statement: compute `unset_attr`,
apply the `display_name` setdefault to the local defaults dict, raise
`IdentityAttributesMissing` if `unset_attr` is non-empty, pop
`_set_default` (default `True`), then perform the `setattr` loops over
`defaults` and then over `kwargs`. The result is the list of `setattr`
assignments performed, in order, and the exception raised, if any (the
raise happens before any assignment). -/
def resourceInitRun (rt : ResourceType) (kwargs : AttrMap) :
    List (String × Value) × Option ResourceError :=
  let unset := unsetOf rt kwargs
  let defaults' := effDefaults rt
  if unset.isEmpty then
    let sd := truthy ((alookup kwargs "_set_default").getD (Value.bool true))
    let kwargs' := kwargs.filter fun p => p.1 ≠ "_set_default"
    ((if sd then defaults' else []) ++ kwargs', Option.none)
  else
    ([], some (ResourceError.identityAttributesMissing unset))

/-- `AciResourceBase.__init__` prepends the check that the concrete class
defines `_tree_parent` and `_aci_mo_name` (in that order); classes
extending plain `ResourceBase` skip it. -/
def mkResourceRun (rt : ResourceType) (kwargs : AttrMap) :
    List (String × Value) × Option ResourceError :=
  if rt.isAci then
    if ¬ rt.has_tree_parent then
      ([], some (ResourceError.aciResourceDefinition "_tree_parent" rt.name))
    else if ¬ rt.has_aci_mo_name then
      ([], some (ResourceError.aciResourceDefinition "_aci_mo_name" rt.name))
    else resourceInitRun rt kwargs
  else resourceInitRun rt kwargs

/-- Constructing a resource: the instance `__dict__` after a successful
`__init__` (assignments applied to a fresh empty dict), or the exception. -/
def mkResource (rt : ResourceType) (kwargs : AttrMap) :
    Except ResourceError AttrMap :=
  match mkResourceRun rt kwargs with
  | (_, some e) => Except.error e
  | (tr, Option.none) => Except.ok (applyAll [] tr)

/-- The `identity` property: the identity attribute values in declaration
order (`getattr` modelled by `alookup`). -/
def identityOf (rt : ResourceType) (m : AttrMap) : List (Option Value) :=
  rt.identity_attributes.map (alookup m)

/-- `','.join(...)` demands every joined element be a string; any missing
or non-string identity value makes `__str__` fail, modelled by `none`. -/
def strsOf : List (Option Value) → Option (List String)
  | [] => some []
  | some (Value.str s) :: t => (strsOf t).map (fun l => s :: l)
  | _ :: _ => Option.none

/-- `ResourceBase.__str__`: `TypeName(id1,id2,...)`. -/
def strRepr (rt : ResourceType) (m : AttrMap) : Option String :=
  (strsOf (identityOf rt m)).map fun l =>
    rt.name ++ "(" ++ String.intercalate "," l ++ ")"

/-- Instance equality: `Agent.__eq__` compares `self.id == other.id`;
every other type uses `ResourceBase.__eq__`, i.e. `__dict__` equality. -/
def instEq (rt : ResourceType) (a b : AttrMap) : Bool :=
  if rt.eqById then decide (alookup a "id" = alookup b "id") else dictEq a b

/-- `AciResourceBase.from_dn`: decompose the DN for the class's managed
object class via the codec (`decompose`); raise `InvalidDNForAciResource`
if the codec rejects the DN or yields fewer segments than there are
identity attributes; otherwise zip the identity attribute names with the
decomposed values positionally and construct the instance from them. -/
def from_dn (rt : ResourceType)
    (decompose : String → String → Except Unit (List String))
    (dn : String) : Except ResourceError AttrMap :=
  match decompose dn rt.aci_mo_name with
  | Except.error _ => Except.error (ResourceError.invalidDN dn rt.name)
  | Except.ok rns =>
    if rns.length < rt.identity_attributes.length then
      Except.error (ResourceError.invalidDN dn rt.name)
    else
      mkResource rt (rt.identity_attributes.zip (rns.map Value.str))

/-- Modelled from the spec: the `UNSPECIFIED` sentinel comes from the types
module (`aim.api.types`), which is not among the source files; the spec
describes it only as a wildcard marker value, so any fixed string stands
for it here. -/
def UNSPECIFIED : Value := Value.str "unspecified"

/-- `Tenant` (`resource.py`). -/
def Tenant : ResourceType where
  name := "Tenant"
  identity_attributes := ["name"]
  other_attributes := ["display_name", "monitored"]
  defaults := [("monitored", Value.bool false)]
  isAci := true
  aci_mo_name := "fvTenant"

/-- `BridgeDomain` (`resource.py`). -/
def BridgeDomain : ResourceType where
  name := "BridgeDomain"
  identity_attributes := ["tenant_name", "name"]
  other_attributes :=
    ["display_name", "vrf_name", "enable_arp_flood", "enable_routing",
     "limit_ip_learn_to_subnets", "l2_unknown_unicast_mode",
     "ep_move_detect_mode", "l3out_names", "monitored"]
  defaults :=
    [("vrf_name", Value.str ""), ("enable_arp_flood", Value.bool true),
     ("enable_routing", Value.bool true),
     ("limit_ip_learn_to_subnets", Value.bool false),
     ("l2_unknown_unicast_mode", Value.str "proxy"),
     ("ep_move_detect_mode", Value.str "garp"),
     ("l3out_names", Value.list []), ("monitored", Value.bool false)]
  isAci := true
  aci_mo_name := "fvBD"

/-- `Agent` (`resource.py`): extends `ResourceBase` directly, has a db
attribute, defaults its own identity attribute `id` to a freshly generated
uuid (the parameter), and overrides `__eq__` to compare by `id`. -/
def Agent (uuid : String) : ResourceType where
  name := "Agent"
  identity_attributes := ["id"]
  other_attributes :=
    ["agent_type", "host", "binary_file", "admin_state_up", "description",
     "hash_trees", "beat_count", "version"]
  db_attributes := ["heartbeat_timestamp"]
  defaults :=
    [("admin_state_up", Value.bool true), ("beat_count", Value.num 0),
     ("id", Value.str uuid)]
  has_tree_parent := false
  has_aci_mo_name := false
  eqById := true

/-- `Subnet` (`resource.py`). -/
def Subnet : ResourceType where
  name := "Subnet"
  identity_attributes := ["tenant_name", "bd_name", "gw_ip_mask"]
  other_attributes := ["scope", "display_name", "monitored"]
  defaults := [("scope", Value.str "public"), ("monitored", Value.bool false)]
  isAci := true
  aci_mo_name := "fvSubnet"

/-- `VRF` (`resource.py`). -/
def VRF : ResourceType where
  name := "VRF"
  identity_attributes := ["tenant_name", "name"]
  other_attributes := ["display_name", "policy_enforcement_pref", "monitored"]
  defaults :=
    [("policy_enforcement_pref", Value.str "enforced"),
     ("monitored", Value.bool false)]
  isAci := true
  aci_mo_name := "fvCtx"

/-- `ApplicationProfile` (`resource.py`). -/
def ApplicationProfile : ResourceType where
  name := "ApplicationProfile"
  identity_attributes := ["tenant_name", "name"]
  other_attributes := ["display_name", "monitored"]
  defaults := [("monitored", Value.bool false)]
  isAci := true
  aci_mo_name := "fvAp"

/-- `EndpointGroup` (`resource.py`). -/
def EndpointGroup : ResourceType where
  name := "EndpointGroup"
  identity_attributes := ["tenant_name", "app_profile_name", "name"]
  other_attributes :=
    ["display_name", "bd_name", "policy_enforcement_pref",
     "provided_contract_names", "consumed_contract_names",
     "openstack_vmm_domain_names", "physical_domain_names",
     "static_paths", "monitored"]
  defaults :=
    [("bd_name", Value.str ""), ("provided_contract_names", Value.list []),
     ("consumed_contract_names", Value.list []),
     ("openstack_vmm_domain_names", Value.list []),
     ("physical_domain_names", Value.list []),
     ("policy_enforcement_pref", Value.str "unenforced"),
     ("static_paths", Value.list []), ("monitored", Value.bool false)]
  isAci := true
  aci_mo_name := "fvAEPg"

/-- `Filter` (`resource.py`); named `ResFilter` here because Mathlib already
declares `Filter`. -/
def ResFilter : ResourceType where
  name := "Filter"
  identity_attributes := ["tenant_name", "name"]
  other_attributes := ["display_name", "monitored"]
  defaults := [("monitored", Value.bool false)]
  isAci := true
  aci_mo_name := "vzFilter"

/-- `FilterEntry` (`resource.py`). -/
def FilterEntry : ResourceType where
  name := "FilterEntry"
  identity_attributes := ["tenant_name", "filter_name", "name"]
  other_attributes :=
    ["display_name", "arp_opcode", "ether_type", "ip_protocol",
     "icmpv4_type", "icmpv6_type", "source_from_port", "source_to_port",
     "dest_from_port", "dest_to_port", "tcp_flags", "stateful",
     "fragment_only", "monitored"]
  defaults :=
    [("arp_opcode", UNSPECIFIED), ("ether_type", UNSPECIFIED),
     ("ip_protocol", UNSPECIFIED), ("icmpv4_type", UNSPECIFIED),
     ("icmpv6_type", UNSPECIFIED), ("source_from_port", UNSPECIFIED),
     ("source_to_port", UNSPECIFIED), ("dest_from_port", UNSPECIFIED),
     ("dest_to_port", UNSPECIFIED), ("tcp_flags", UNSPECIFIED),
     ("stateful", Value.bool false), ("fragment_only", Value.bool false),
     ("monitored", Value.bool false)]
  isAci := true
  aci_mo_name := "vzEntry"

/-- `Contract` (`resource.py`). -/
def Contract : ResourceType where
  name := "Contract"
  identity_attributes := ["tenant_name", "name"]
  other_attributes := ["scope", "display_name", "monitored"]
  defaults := [("scope", Value.str "context"), ("monitored", Value.bool false)]
  isAci := true
  aci_mo_name := "vzBrCP"

/-- `ContractSubject` (`resource.py`). -/
def ContractSubject : ResourceType where
  name := "ContractSubject"
  identity_attributes := ["tenant_name", "contract_name", "name"]
  other_attributes :=
    ["display_name", "in_filters", "out_filters", "bi_filters", "monitored"]
  defaults :=
    [("in_filters", Value.list []), ("out_filters", Value.list []),
     ("bi_filters", Value.list []), ("monitored", Value.bool false)]
  isAci := true
  aci_mo_name := "vzSubj"

/-- `Endpoint` (`resource.py`): extends `ResourceBase` directly; three of
its defaults are the Python value `None`. -/
def Endpoint : ResourceType where
  name := "Endpoint"
  identity_attributes := ["uuid"]
  other_attributes :=
    ["display_name", "epg_tenant_name", "epg_app_profile_name", "epg_name"]
  defaults :=
    [("epg_name", Value.none), ("epg_tenant_name", Value.none),
     ("epg_app_profile_name", Value.none)]
  has_tree_parent := false
  has_aci_mo_name := false

/-- `VMMDomain` (`resource.py`): extends `ResourceBase` directly although it
declares `_aci_mo_name` and `_tree_parent`. -/
def VMMDomain : ResourceType where
  name := "VMMDomain"
  identity_attributes := ["type", "name"]
  other_attributes := []
  defaults := []
  aci_mo_name := "vmmDomP"

/-- `PhysicalDomain` (`resource.py`): extends `ResourceBase` directly. -/
def PhysicalDomain : ResourceType where
  name := "PhysicalDomain"
  identity_attributes := ["name"]
  other_attributes := []
  defaults := []
  aci_mo_name := "physDomP"

/-- `L3Outside` (`resource.py`). -/
def L3Outside : ResourceType where
  name := "L3Outside"
  identity_attributes := ["tenant_name", "name"]
  other_attributes := ["display_name", "vrf_name", "l3_domain_dn", "monitored"]
  defaults :=
    [("vrf_name", Value.str ""), ("l3_domain_dn", Value.str ""),
     ("monitored", Value.bool false)]
  isAci := true
  aci_mo_name := "l3extOut"

/-- `ExternalNetwork` (`resource.py`). -/
def ExternalNetwork : ResourceType where
  name := "ExternalNetwork"
  identity_attributes := ["tenant_name", "l3out_name", "name"]
  other_attributes :=
    ["display_name", "nat_epg_dn", "provided_contract_names",
     "consumed_contract_names", "monitored"]
  defaults :=
    [("nat_epg_dn", Value.str ""), ("provided_contract_names", Value.list []),
     ("consumed_contract_names", Value.list []),
     ("monitored", Value.bool false)]
  isAci := true
  aci_mo_name := "l3extInstP"

/-- `ExternalSubnet` (`resource.py`). -/
def ExternalSubnet : ResourceType where
  name := "ExternalSubnet"
  identity_attributes :=
    ["tenant_name", "l3out_name", "external_network_name", "cidr"]
  other_attributes := ["display_name", "monitored"]
  defaults := [("monitored", Value.bool false)]
  isAci := true
  aci_mo_name := "l3extSubnet"

/-- `SecurityGroup` (`resource.py`). -/
def SecurityGroup : ResourceType where
  name := "SecurityGroup"
  identity_attributes := ["tenant_name", "name"]
  other_attributes := ["display_name", "monitored"]
  defaults := [("monitored", Value.bool false)]
  isAci := true
  aci_mo_name := "hostprotPol"

/-- `SecurityGroupSubject` (`resource.py`). -/
def SecurityGroupSubject : ResourceType where
  name := "SecurityGroupSubject"
  identity_attributes := ["tenant_name", "security_group_name", "name"]
  other_attributes := ["display_name", "monitored"]
  defaults := [("monitored", Value.bool false)]
  isAci := true
  aci_mo_name := "hostprotSubj"

/-- `SecurityGroupRule` (`resource.py`). -/
def SecurityGroupRule : ResourceType where
  name := "SecurityGroupRule"
  identity_attributes :=
    ["tenant_name", "security_group_name", "security_group_subject_name",
     "name"]
  other_attributes :=
    ["display_name", "direction", "ethertype", "remote_ips", "ip_protocol",
     "from_port", "to_port", "monitored"]
  defaults :=
    [("direction", Value.str "ingress"), ("ethertype", Value.str "undefined"),
     ("remote_ips", Value.list []), ("ip_protocol", UNSPECIFIED),
     ("from_port", UNSPECIFIED), ("to_port", UNSPECIFIED),
     ("monitored", Value.bool false)]
  isAci := true
  aci_mo_name := "hostprotRule"

/-- Every resource type the module declares; `uuid` is the value
`utils.generate_uuid()` produced for `Agent`'s `id` default. -/
def catalog (uuid : String) : List ResourceType :=
  [Tenant, BridgeDomain, Agent uuid, Subnet, VRF, ApplicationProfile,
   EndpointGroup, ResFilter, FilterEntry, Contract, ContractSubject, Endpoint,
   VMMDomain, PhysicalDomain, L3Outside, ExternalNetwork, ExternalSubnet,
   SecurityGroup, SecurityGroupSubject, SecurityGroupRule]

deriving instance DecidableEq for Except

/-- Split a character list on a separator character (the DN separator `/`). -/
def splitOnChar (c : Char) : List Char → List (List Char)
  | [] => [[]]
  | x :: xs =>
    match splitOnChar c xs with
    | [] => [[]]
    | h :: t => if x = c then [] :: h :: t else (x :: h) :: t

/-- Strip an expected leading character sequence, or fail. -/
def stripLead : List Char → List Char → Option (List Char)
  | [], s => some s
  | p :: ps, c :: cs => if p = c then stripLead ps cs else Option.none
  | _ :: _, [] => Option.none

/-- Modelled from the spec: the external path codec's `encode` capability
(spec section 6, `apic_client.ManagedObjectClass(mo).dn(*identity)`), which
is not part of this repository. It is instantiated for the two object
classes the concrete scenarios use, with the DN shapes the repository's own
fixtures show (`uni/tn-<tenant>` for `fvTenant`, `uni/tn-<tenant>/BD-<name>`
for `fvBD`). -/
def encodePath (mo : String) (vals : List String) : String :=
  match mo, vals with
  | "fvTenant", [t] => "uni/tn-" ++ t
  | "fvBD", [t, n] => "uni/tn-" ++ t ++ "/BD-" ++ n
  | _, _ => ""

/-- Modelled from the spec: the external path codec's `decode` capability
(spec section 6, `apic_client.DNManager().aci_decompose(dn, mo)`), which is
not part of this repository: it rejects a path malformed for the object
class (`DNManager.InvalidNameFormat`, the `Except.error`), else returns the
ordered segment values. Instantiated for the same two object classes with
the DN shapes of the repository's fixtures. -/
def decodePath (dn : String) (mo : String) : Except Unit (List String) :=
  match mo, splitOnChar '/' dn.data with
  | "fvTenant", [u, s] =>
    if u = ("uni").data then
      match stripLead (("tn-").data) s with
      | some r => Except.ok [String.mk r]
      | Option.none => Except.error ()
    else Except.error ()
  | "fvBD", [u, s1, s2] =>
    if u = ("uni").data then
      match stripLead (("tn-").data) s1, stripLead (("BD-").data) s2 with
      | some r1, some r2 => Except.ok [String.mk r1, String.mk r2]
      | _, _ => Except.error ()
    else Except.error ()
  | _, _ => Except.error ()

example : encodePath "fvBD" ["acme", "web"] = "uni/tn-acme/BD-web" := by decide
example : decodePath "uni/tn-acme/BD-web" "fvBD" = Except.ok ["acme", "web"] := by decide
example : decodePath "uni/tn-acme" "fvTenant" = Except.ok ["acme"] := by decide
example : decodePath "uni/tn-acme" "fvBD" = Except.error () := by decide
example : decodePath "garbage" "fvTenant" = Except.error () := by decide

theorem alookup_mem {m : AttrMap} {k : String} {v : Value}
    (h : alookup m k = some v) : (k, v) ∈ m := by
  induction m with
  | nil => simp [alookup] at h
  | cons p m ih =>
    obtain ⟨k', w⟩ := p
    by_cases hk : k' = k
    · subst hk
      simp [alookup] at h
      simp [h]
    · simp [alookup, hk] at h
      exact List.mem_cons_of_mem _ (ih h)

theorem alookup_of_mem_nodup {m : AttrMap} {k : String} {v : Value}
    (hn : KeyNodup m) (h : (k, v) ∈ m) : alookup m k = some v := by
  induction m with
  | nil => simp at h
  | cons p m ih =>
    obtain ⟨k', w⟩ := p
    unfold KeyNodup at hn
    simp only [List.map_cons, List.nodup_cons] at hn
    rcases List.mem_cons.mp h with h1 | h1
    · obtain ⟨hk, hv⟩ := Prod.mk.injEq .. ▸ h1
      simp [alookup, hk.symm, hv]
    · have hk : k' ≠ k := by
        intro he
        exact hn.1 (he ▸ List.mem_map_of_mem Prod.fst h1)
      simp [alookup, hk]
      exact ih hn.2 h1

theorem alookup_eq_none {m : AttrMap} {k : String}
    (h : k ∉ m.map Prod.fst) : alookup m k = Option.none := by
  induction m with
  | nil => rfl
  | cons p m ih =>
    simp only [List.map_cons, List.mem_cons] at h
    push_neg at h
    simp [alookup, Ne.symm h.1, ih h.2]

theorem lookupLast_eq_none {m : AttrMap} {k : String}
    (h : k ∉ m.map Prod.fst) : lookupLast m k = Option.none := by
  induction m with
  | nil => rfl
  | cons p m ih =>
    simp only [List.map_cons, List.mem_cons] at h
    push_neg at h
    simp [lookupLast, ih h.2, Ne.symm h.1]

theorem lookupLast_append (a b : AttrMap) (k : String) :
    lookupLast (a ++ b) k =
      match lookupLast b k with
      | some w => some w
      | Option.none => lookupLast a k := by
  induction a with
  | nil =>
    simp only [List.nil_append]
    cases lookupLast b k <;> simp [lookupLast]
  | cons p a ih =>
    obtain ⟨k', v⟩ := p
    have hl : lookupLast (((k', v) :: a) ++ b) k =
        match lookupLast (a ++ b) k with
        | some w => some w
        | Option.none => if k' = k then some v else Option.none := rfl
    rw [hl, ih]
    cases lookupLast b k <;> rfl

theorem lookupLast_eq_alookup {m : AttrMap} (hn : KeyNodup m) (k : String) :
    lookupLast m k = alookup m k := by
  induction m with
  | nil => rfl
  | cons p m ih =>
    obtain ⟨k', v⟩ := p
    unfold KeyNodup at hn
    simp only [List.map_cons, List.nodup_cons] at hn
    by_cases hk : k' = k
    · have h0 : lookupLast m k = Option.none := by
        apply lookupLast_eq_none
        rw [← hk]
        exact hn.1
      simp [lookupLast, alookup, hk, h0]
    · simp only [lookupLast, alookup, hk, ih hn.2, if_neg hk]
      cases alookup m k <;> simp

theorem alookup_setattr_self (m : AttrMap) (k : String) (v : Value) :
    alookup (setattr m k v) k = some v := by
  induction m with
  | nil => simp [setattr, alookup]
  | cons p m ih =>
    obtain ⟨k', w⟩ := p
    by_cases hk : k' = k
    · simp [setattr, hk, alookup]
    · simp [setattr, hk, alookup, ih]

theorem alookup_setattr_other {m : AttrMap} {k k₁ : String} (v : Value)
    (h : k₁ ≠ k) : alookup (setattr m k v) k₁ = alookup m k₁ := by
  induction m with
  | nil => simp [setattr, alookup, Ne.symm h]
  | cons p m ih =>
    obtain ⟨k', w⟩ := p
    by_cases hk : k' = k
    · subst hk
      simp [setattr, alookup, Ne.symm h]
    · simp [setattr, hk, alookup, ih]

theorem alookup_applyAll (tr : List (String × Value)) :
    ∀ (m : AttrMap) (k : String),
      alookup (applyAll m tr) k =
        match lookupLast tr k with
        | some w => some w
        | Option.none => alookup m k := by
  induction tr with
  | nil => intro m k; simp [applyAll, lookupLast]
  | cons p tr ih =>
    intro m k
    obtain ⟨k', v⟩ := p
    have : applyAll m ((k', v) :: tr) = applyAll (setattr m k' v) tr := rfl
    rw [this, ih]
    simp only [lookupLast]
    cases lookupLast tr k with
    | some w => simp
    | none =>
      by_cases hk : k' = k
      · subst hk; simp [alookup_setattr_self]
      · simp [hk, alookup_setattr_other _ (Ne.symm hk)]

theorem alookup_applyAll_nil (tr : List (String × Value)) (k : String) :
    alookup (applyAll [] tr) k = lookupLast tr k := by
  rw [alookup_applyAll]
  cases lookupLast tr k <;> simp [alookup]

theorem setattr_cons_eq {m : AttrMap} {k k' : String} (w v : Value)
    (hk : k' = k) : setattr ((k', w) :: m) k v = (k, v) :: m := by
  simp [setattr, hk]

theorem setattr_cons_ne {m : AttrMap} {k k' : String} (w v : Value)
    (hk : k' ≠ k) : setattr ((k', w) :: m) k v = (k', w) :: setattr m k v := by
  simp [setattr, hk]

theorem mem_keys_setattr {m : AttrMap} {k k₁ : String} {v : Value}
    (h : k₁ ∈ (setattr m k v).map Prod.fst) :
    k₁ ∈ m.map Prod.fst ∨ k₁ = k := by
  induction m with
  | nil =>
    simp only [setattr, List.map_cons, List.map_nil, List.mem_singleton] at h
    exact Or.inr h
  | cons p m ih =>
    obtain ⟨k', w⟩ := p
    by_cases hk : k' = k
    · rw [setattr_cons_eq w v hk] at h
      simp only [List.map_cons, List.mem_cons] at h
      rcases h with h | h
      · exact Or.inr h
      · exact Or.inl (List.mem_cons_of_mem _ h)
    · rw [setattr_cons_ne w v hk] at h
      simp only [List.map_cons, List.mem_cons] at h
      rcases h with h | h
      · exact Or.inl (List.mem_cons.mpr (Or.inl h))
      · rcases ih h with h1 | h1
        · exact Or.inl (List.mem_cons_of_mem _ h1)
        · exact Or.inr h1

theorem keyNodup_setattr {m : AttrMap} (k : String) (v : Value)
    (hn : KeyNodup m) : KeyNodup (setattr m k v) := by
  induction m with
  | nil => simp [setattr, KeyNodup]
  | cons p m ih =>
    obtain ⟨k', w⟩ := p
    unfold KeyNodup at hn ⊢
    simp only [List.map_cons, List.nodup_cons] at hn
    by_cases hk : k' = k
    · rw [setattr_cons_eq w v hk]
      simp only [List.map_cons, List.nodup_cons]
      exact ⟨hk ▸ hn.1, hn.2⟩
    · rw [setattr_cons_ne w v hk]
      simp only [List.map_cons, List.nodup_cons]
      refine ⟨fun hm => ?_, ih hn.2⟩
      rcases mem_keys_setattr hm with h1 | h1
      · exact hn.1 h1
      · exact hk h1

theorem keyNodup_applyAll (tr : List (String × Value)) :
    ∀ (m : AttrMap), KeyNodup m → KeyNodup (applyAll m tr) := by
  induction tr with
  | nil => intro m hm; exact hm
  | cons p tr ih =>
    intro m hm
    exact ih (setattr m p.1 p.2) (keyNodup_setattr p.1 p.2 hm)

theorem lookupLast_filter_ne {s k : String} (h : k ≠ s) (m : AttrMap) :
    lookupLast (m.filter fun p => p.1 ≠ s) k = lookupLast m k := by
  induction m with
  | nil => rfl
  | cons p m ih =>
    obtain ⟨k', v⟩ := p
    by_cases hs : k' = s
    · subst hs
      have hf : ((k', v) :: m).filter (fun p => p.1 ≠ k') =
          m.filter fun p => p.1 ≠ k' := by
        simp [List.filter_cons]
      rw [hf, ih]
      have hne : lookupLast ((k', v) :: m) k =
          match lookupLast m k with
          | some w => some w
          | Option.none => if k' = k then some v else Option.none := rfl
      rw [hne, if_neg (fun he => h he.symm)]
      cases lookupLast m k <;> rfl
    · have hf : ((k', v) :: m).filter (fun p => p.1 ≠ s) =
          (k', v) :: m.filter fun p => p.1 ≠ s := by
        simp [List.filter_cons, hs]
      rw [hf]
      show (match lookupLast (m.filter fun p => p.1 ≠ s) k with
        | some w => some w
        | Option.none => if k' = k then some v else Option.none) = _
      rw [ih]
      rfl

theorem lookupLast_of_keys_sub {m : AttrMap} {ks : List String} {k : String}
    (hsub : ∀ p ∈ m, p.1 ∈ ks) (hk : k ∉ ks) :
    lookupLast m k = Option.none := by
  apply lookupLast_eq_none
  intro hmem
  obtain ⟨p, hp, he⟩ := List.mem_map.mp hmem
  rw [← he] at hk
  exact hk (hsub p hp)

theorem alookup_zip_mem {ids : List String} {vs : List Value} {k : String}
    (hm : k ∈ ids) (hl : ids.length ≤ vs.length) :
    ∃ v, v ∈ vs ∧ alookup (ids.zip vs) k = some v := by
  induction ids generalizing vs with
  | nil => simp at hm
  | cons i ids ih =>
    cases vs with
    | nil => simp at hl
    | cons v vs =>
      by_cases hik : i = k
      · exact ⟨v, List.mem_cons_self .., by simp [List.zip_cons_cons, alookup, hik]⟩
      · have hm' : k ∈ ids := by
          rcases List.mem_cons.mp hm with h | h
          · exact absurd h.symm hik
          · exact h
        obtain ⟨w, hw, hlk⟩ := ih hm' (by simpa using Nat.le_of_succ_le_succ hl)
        refine ⟨w, List.mem_cons_of_mem _ hw, ?_⟩
        have hz : ((i :: ids).zip (v :: vs)) = (i, v) :: ids.zip vs := rfl
        rw [hz]
        simp only [alookup, if_neg hik]
        exact hlk

theorem keys_zip {ids : List String} {vs : List Value}
    (hl : ids.length ≤ vs.length) : (ids.zip vs).map Prod.fst = ids := by
  induction ids generalizing vs with
  | nil => simp
  | cons i ids ih =>
    cases vs with
    | nil => simp at hl
    | cons v vs =>
      simp only [List.zip_cons_cons, List.map_cons, List.cons.injEq, true_and]
      exact ih (Nat.le_of_succ_le_succ hl)

theorem map_alookup_zip {ids : List String} {vs : List Value}
    (hn : ids.Nodup) (hl : ids.length ≤ vs.length) :
    ids.map (alookup (ids.zip vs)) = (vs.take ids.length).map some := by
  induction ids generalizing vs with
  | nil => simp
  | cons i ids ih =>
    cases vs with
    | nil => simp at hl
    | cons v vs =>
      simp only [List.nodup_cons] at hn
      have hz : ((i :: ids).zip (v :: vs)) = (i, v) :: ids.zip vs := rfl
      rw [hz]
      simp only [List.map_cons, List.length_cons, List.take_succ_cons]
      have hhead : alookup ((i, v) :: ids.zip vs) i = some v := by
        simp [alookup]
      have hcg : ids.map (alookup ((i, v) :: ids.zip vs)) =
          ids.map (alookup (ids.zip vs)) := by
        apply List.map_congr_left
        intro a ha
        have hia : i ≠ a := fun he => hn.1 (he ▸ ha)
        simp [alookup, hia]
      rw [hhead, hcg, ih hn.2 (Nat.le_of_succ_le_succ hl)]

theorem dictEq_true_iff {a b : AttrMap} :
    dictEq a b = true ↔
      (∀ p ∈ a, alookup b p.1 = some p.2) ∧
        ∀ p ∈ b, alookup a p.1 = some p.2 := by
  unfold dictEq
  simp [List.all_eq_true]

theorem dictEq_pointwise {a b : AttrMap} (h : dictEq a b = true) (k : String) :
    alookup a k = alookup b k := by
  obtain ⟨h1, h2⟩ := dictEq_true_iff.mp h
  cases ha : alookup a k with
  | some v => exact (h1 (k, v) (alookup_mem ha)).symm
  | none =>
    cases hb : alookup b k with
    | some w =>
      have := h2 (k, w) (alookup_mem hb)
      rw [ha] at this
      exact this
    | none => rfl

theorem dictEq_refl {a : AttrMap} (h : KeyNodup a) : dictEq a a = true :=
  dictEq_true_iff.mpr
    ⟨fun _p hp => alookup_of_mem_nodup h hp,
     fun _p hp => alookup_of_mem_nodup h hp⟩

theorem dictEq_symm (a b : AttrMap) : dictEq a b = dictEq b a := by
  unfold dictEq
  exact Bool.and_comm _ _

theorem dictEq_trans {a b c : AttrMap} (h1 : dictEq a b = true)
    (h2 : dictEq b c = true) : dictEq a c = true := by
  refine dictEq_true_iff.mpr ⟨fun p hp => ?_, fun p hp => ?_⟩
  · rw [← dictEq_pointwise h2 p.1]
    exact (dictEq_true_iff.mp h1).1 p hp
  · rw [dictEq_pointwise h1 p.1]
    exact (dictEq_true_iff.mp h2).2 p hp

theorem dictEq_false_of_ne {a b : AttrMap} {k : String}
    (h : alookup a k ≠ alookup b k) : dictEq a b = false := by
  cases he : dictEq a b with
  | false => rfl
  | true => exact absurd (dictEq_pointwise he k) h

/-- The decidable well-formedness facts used by the generic construction
lemmas; every type in the catalog satisfies them. -/
def Sane (rt : ResourceType) : Prop :=
  (rt.isAci = true → rt.has_tree_parent = true ∧ rt.has_aci_mo_name = true) ∧
    rt.identity_attributes.Nodup ∧
    (∀ k ∈ rt.identity_attributes,
      k ∉ rt.other_attributes ++ rt.db_attributes) ∧
    KeyNodup (effDefaults rt) ∧
    "_set_default" ∉ rt.identity_attributes

instance (rt : ResourceType) : Decidable (Sane rt) := by
  unfold Sane; infer_instance

theorem saneAgent (uuid : String) : Sane (Agent uuid) := by
  unfold Sane
  refine ⟨?_, ?_, ?_, ?_, ?_⟩ <;>
    simp [Agent, effDefaults, KeyNodup, alookup]

theorem saneCatalog (uuid : String) :
    ∀ rt ∈ catalog uuid, Sane rt := by
  intro rt h
  simp only [catalog, List.mem_cons, List.not_mem_nil, or_false] at h
  rcases h with rfl | rfl | rfl | rfl | rfl | rfl | rfl | rfl | rfl | rfl |
    rfl | rfl | rfl | rfl | rfl | rfl | rfl | rfl | rfl | rfl
  case inr.inr.inl => exact saneAgent uuid
  all_goals decide

theorem mkResourceRun_eq_initRun {rt : ResourceType}
    (h : rt.isAci = true → rt.has_tree_parent = true ∧ rt.has_aci_mo_name = true)
    (kwargs : AttrMap) : mkResourceRun rt kwargs = resourceInitRun rt kwargs := by
  unfold mkResourceRun
  cases ha : rt.isAci with
  | false => simp
  | true => simp [(h ha).1, (h ha).2]

theorem resourceInitRun_error {rt : ResourceType} {kwargs : AttrMap}
    (h : unsetOf rt kwargs ≠ []) :
    resourceInitRun rt kwargs =
      ([], some (ResourceError.identityAttributesMissing
        (unsetOf rt kwargs))) := by
  unfold resourceInitRun
  rw [if_neg]
  simpa using h

theorem resourceInitRun_ok {rt : ResourceType} {kwargs : AttrMap}
    (h : unsetOf rt kwargs = []) :
    resourceInitRun rt kwargs =
      (((if truthy ((alookup kwargs "_set_default").getD (Value.bool true))
          then effDefaults rt else []) ++
        kwargs.filter fun p => p.1 ≠ "_set_default"), Option.none) := by
  unfold resourceInitRun
  rw [if_pos]
  simp [h]

theorem mkResource_error {rt : ResourceType} {kwargs : AttrMap}
    (ha : rt.isAci = true → rt.has_tree_parent = true ∧ rt.has_aci_mo_name = true)
    (h : unsetOf rt kwargs ≠ []) :
    mkResource rt kwargs =
      Except.error (ResourceError.identityAttributesMissing
        (unsetOf rt kwargs)) := by
  unfold mkResource
  rw [mkResourceRun_eq_initRun ha, resourceInitRun_error h]

theorem mkResource_ok {rt : ResourceType} {kwargs : AttrMap}
    (ha : rt.isAci = true → rt.has_tree_parent = true ∧ rt.has_aci_mo_name = true)
    (h : unsetOf rt kwargs = []) :
    mkResource rt kwargs =
      Except.ok (applyAll []
        ((if truthy ((alookup kwargs "_set_default").getD (Value.bool true))
          then effDefaults rt else []) ++
          kwargs.filter fun p => p.1 ≠ "_set_default")) := by
  unfold mkResource
  rw [mkResourceRun_eq_initRun ha, resourceInitRun_ok h]

theorem alookup_isSome_of_mem_keys {m : AttrMap} {k : String}
    (h : k ∈ m.map Prod.fst) : ∃ v, alookup m k = some v := by
  induction m with
  | nil => simp at h
  | cons p m ih =>
    obtain ⟨k', v⟩ := p
    by_cases hk : k' = k
    · exact ⟨v, by simp [alookup, hk]⟩
    · simp only [List.map_cons, List.mem_cons] at h
      rcases h with h | h
      · exact absurd h.symm hk
      · obtain ⟨w, hw⟩ := ih h
        exact ⟨w, by simp [alookup, hk, hw]⟩

/-- Constructing from a kwargs dict that binds exactly the identity
attributes, none of them to `None`, succeeds; identity attributes read back
the caller's values and every other/db attribute reads back the effective
defaults. -/
theorem mk_identity_kwargs {rt : ResourceType} (hs : Sane rt)
    {kwargs : AttrMap}
    (hkeys : kwargs.map Prod.fst = rt.identity_attributes)
    (hvals : ∀ p ∈ kwargs, p.2 ≠ Value.none) :
    ∃ m, mkResource rt kwargs = Except.ok m ∧
      (∀ k ∈ rt.identity_attributes, alookup m k = alookup kwargs k) ∧
      ∀ k ∈ rt.other_attributes ++ rt.db_attributes,
        alookup m k = alookup (effDefaults rt) k := by
  obtain ⟨haci, hnodup, hdisj, hdnd, hsd⟩ := hs
  have hkw : ∀ k ∈ rt.identity_attributes, ∃ v, alookup kwargs k = some v ∧
      v ≠ Value.none := by
    intro k hk
    obtain ⟨v, hv⟩ := alookup_isSome_of_mem_keys (hkeys ▸ hk)
    exact ⟨v, hv, hvals (k, v) (alookup_mem hv)⟩
  have hunset : unsetOf rt kwargs = [] := by
    unfold unsetOf
    rw [List.filter_eq_nil_iff]
    intro k hk
    obtain ⟨v, hv, hvn⟩ := hkw k hk
    simp [kwGet, hv, hvn]
  have hnosd : alookup kwargs "_set_default" = Option.none := by
    apply alookup_eq_none
    rw [hkeys]
    exact hsd
  have hsdt : truthy ((alookup kwargs "_set_default").getD (Value.bool true)) =
      true := by
    rw [hnosd]
    rfl
  have hok := mkResource_ok haci hunset
  rw [hsdt, if_pos rfl] at hok
  set kf := kwargs.filter fun p => p.1 ≠ "_set_default" with hkf
  refine ⟨_, hok, fun k hk => ?_, fun k hk => ?_⟩
  · rw [alookup_applyAll_nil, lookupLast_append]
    have hne : k ≠ "_set_default" := fun he => hsd (he ▸ hk)
    have hkn : KeyNodup kwargs := by
      unfold KeyNodup
      rw [hkeys]
      exact hnodup
    rw [hkf, lookupLast_filter_ne hne, lookupLast_eq_alookup hkn]
    obtain ⟨v, hv, _⟩ := hkw k hk
    rw [hv]
  · rw [alookup_applyAll_nil, lookupLast_append]
    have hkni : k ∉ rt.identity_attributes := by
      intro hki
      exact hdisj k hki hk
    have hkfl : lookupLast kf k = Option.none := by
      refine lookupLast_of_keys_sub ?_ hkni
      intro p hp
      rw [← hkeys]
      exact List.mem_map_of_mem Prod.fst (List.mem_of_mem_filter hp)
    rw [hkfl, lookupLast_eq_alookup hdnd]

/-- Successful `from_dn`: when the codec accepts the DN with at least as
many segments as identity attributes, decoding succeeds, the identity
attributes take the decoded segment values positionally, and the other/db
attributes take the effective defaults. -/
theorem fromDn_ok {rt : ResourceType} (hs : Sane rt)
    {decompose : String → String → Except Unit (List String)}
    {dn : String} {rns : List String}
    (hd : decompose dn rt.aci_mo_name = Except.ok rns)
    (hl : rt.identity_attributes.length ≤ rns.length) :
    ∃ m, from_dn rt decompose dn = Except.ok m ∧
      identityOf rt m =
        (rns.take rt.identity_attributes.length).map
          (fun s => some (Value.str s)) ∧
      ∀ k ∈ rt.other_attributes ++ rt.db_attributes,
        alookup m k = alookup (effDefaults rt) k := by
  have hlv : rt.identity_attributes.length ≤ (rns.map Value.str).length := by
    simpa using hl
  have hkeys : (rt.identity_attributes.zip (rns.map Value.str)).map Prod.fst =
      rt.identity_attributes := keys_zip hlv
  have hvals : ∀ p ∈ rt.identity_attributes.zip (rns.map Value.str),
      p.2 ≠ Value.none := by
    intro p hp
    have h2 := List.of_mem_zip hp
    obtain ⟨s, _, he⟩ := List.mem_map.mp h2.2
    rw [← he]
    simp
  obtain ⟨m, hok, hid, hoth⟩ := mk_identity_kwargs hs hkeys hvals
  refine ⟨m, ?_, ?_, hoth⟩
  · unfold from_dn
    rw [hd]
    show (if rns.length < rt.identity_attributes.length then
        Except.error (ResourceError.invalidDN dn rt.name)
      else mkResource rt (rt.identity_attributes.zip (rns.map Value.str))) = _
    rw [if_neg (Nat.not_lt.mpr hl)]
    exact hok
  · unfold identityOf
    have hcg : rt.identity_attributes.map (alookup m) =
        rt.identity_attributes.map
          (alookup (rt.identity_attributes.zip (rns.map Value.str))) :=
      List.map_congr_left hid
    rw [hcg, map_alookup_zip hs.2.1 hlv]
    rw [← List.map_take, List.map_map]
    rfl

/-- An identity attribute with no caller-supplied value (`kwargs.get(k) is
None`) and no entry in the type's default mapping. -/
def MissingId (rt : ResourceType) (kwargs : AttrMap) (k : String) : Prop :=
  k ∈ rt.identity_attributes ∧ kwGet kwargs k = Value.none ∧
    alookup rt.defaults k = Option.none

instance (rt : ResourceType) (kwargs : AttrMap) (k : String) :
    Decidable (MissingId rt kwargs k) := by
  unfold MissingId; infer_instance

theorem mem_unsetOf {rt : ResourceType} {kwargs : AttrMap} {k : String} :
    k ∈ unsetOf rt kwargs ↔ MissingId rt kwargs k := by
  unfold unsetOf MissingId
  rw [List.mem_filter]
  simp [Option.isNone_iff_eq_none, and_assoc]

/-- C1: for every resource type, construction fails with the
identity-attributes-missing error exactly when some identity attribute has
no caller-supplied value and no default; the error's attribute list then
contains precisely the missing identity attributes (all reported at once);
when none is missing no such error is raised and construction succeeds. -/
theorem identity_missing_exact (uuid : String) (rt : ResourceType)
    (hmem : rt ∈ catalog uuid) (kwargs : AttrMap) :
    ((∃ k, MissingId rt kwargs k) →
      ∃ l, mkResource rt kwargs =
          Except.error (ResourceError.identityAttributesMissing l) ∧
        ∀ k, k ∈ l ↔ MissingId rt kwargs k) ∧
    ((∀ k, ¬ MissingId rt kwargs k) →
      ∃ m, mkResource rt kwargs = Except.ok m) := by
  have hs := saneCatalog uuid rt hmem
  constructor
  · intro ⟨k, hk⟩
    have hne : unsetOf rt kwargs ≠ [] :=
      List.ne_nil_of_mem (mem_unsetOf.mpr hk)
    exact ⟨unsetOf rt kwargs, mkResource_error hs.1 hne,
      fun _ => mem_unsetOf⟩
  · intro hall
    have he : unsetOf rt kwargs = [] := by
      rw [List.eq_nil_iff_forall_not_mem]
      intro k hk
      exact hall k (mem_unsetOf.mp hk)
    exact ⟨_, mkResource_ok hs.1 he⟩

/-- Witness for C1: omitting `Tenant`'s single identity attribute reports
exactly `name`; omitting both of `BridgeDomain`'s reports both; supplying
the identity makes construction succeed. -/
theorem identity_missing_exact_witness :
    ((∃ k, MissingId Tenant [] k) →
      ∃ l, mkResource Tenant [] =
          Except.error (ResourceError.identityAttributesMissing l) ∧
        ∀ k, k ∈ l ↔ MissingId Tenant [] k) ∧
    ((∃ k, MissingId BridgeDomain [] k) →
      ∃ l, mkResource BridgeDomain [] =
          Except.error (ResourceError.identityAttributesMissing l) ∧
        ∀ k, k ∈ l ↔ MissingId BridgeDomain [] k) ∧
    ((∀ k, ¬ MissingId Tenant [("name", Value.str "acme")] k) →
      ∃ m, mkResource Tenant [("name", Value.str "acme")] = Except.ok m) :=
  ⟨(identity_missing_exact "u" Tenant (by decide) []).1,
   (identity_missing_exact "u" BridgeDomain (by decide) []).1,
   (identity_missing_exact "u" Tenant (by decide)
     [("name", Value.str "acme")]).2⟩

/-- C10: explicitly passing `None` for an identity attribute that has no
default behaves like omitting it: construction fails with the
identity-attributes-missing error naming that attribute. -/
theorem explicit_none_missing (uuid : String) (rt : ResourceType)
    (hmem : rt ∈ catalog uuid) (kwargs : AttrMap) (k : String)
    (hk : k ∈ rt.identity_attributes)
    (hkw : alookup kwargs k = some Value.none)
    (hd : alookup rt.defaults k = Option.none) :
    ∃ l, mkResource rt kwargs =
        Except.error (ResourceError.identityAttributesMissing l) ∧ k ∈ l := by
  have hs := saneCatalog uuid rt hmem
  have hmiss : MissingId rt kwargs k := ⟨hk, by simp [kwGet, hkw], hd⟩
  have hne : unsetOf rt kwargs ≠ [] :=
    List.ne_nil_of_mem (mem_unsetOf.mpr hmiss)
  exact ⟨_, mkResource_error hs.1 hne, mem_unsetOf.mpr hmiss⟩

/-- Witness for C10: `Tenant(name=None)` fails naming `name` even though a
keyword argument was passed. -/
theorem explicit_none_missing_witness :
    ∃ l, mkResource Tenant [("name", Value.none)] =
        Except.error (ResourceError.identityAttributesMissing l) ∧
      "name" ∈ l :=
  explicit_none_missing "u" Tenant (by decide) [("name", Value.none)] "name"
    (by decide) (by decide) (by decide)

/-- C2: for every hierarchical resource type, `from_dn` raises the
invalid-path error carrying the DN and the target type when the codec
rejects the path, or when the decomposition yields fewer segments than the
type's identity arity; with at least that many segments it succeeds and the
identity attributes are the decomposed values zipped positionally onto the
identity attribute names in declaration order. -/
theorem from_dn_cases (uuid : String) (rt : ResourceType)
    (hmem : rt ∈ catalog uuid) (_haci : rt.isAci = true)
    (decompose : String → String → Except Unit (List String)) (dn : String) :
    (decompose dn rt.aci_mo_name = Except.error () →
      from_dn rt decompose dn =
        Except.error (ResourceError.invalidDN dn rt.name)) ∧
    ∀ rns, decompose dn rt.aci_mo_name = Except.ok rns →
      (rns.length < rt.identity_attributes.length →
        from_dn rt decompose dn =
          Except.error (ResourceError.invalidDN dn rt.name)) ∧
      (rt.identity_attributes.length ≤ rns.length →
        ∃ m, from_dn rt decompose dn = Except.ok m ∧
          identityOf rt m =
            (rns.take rt.identity_attributes.length).map
              (fun s => some (Value.str s))) := by
  refine ⟨fun hd => ?_, fun rns hd => ⟨fun hlt => ?_, fun hle => ?_⟩⟩
  · unfold from_dn
    rw [hd]
  · unfold from_dn
    rw [hd]
    show (if rns.length < rt.identity_attributes.length then
        Except.error (ResourceError.invalidDN dn rt.name)
      else mkResource rt (rt.identity_attributes.zip (rns.map Value.str))) = _
    rw [if_pos hlt]
  · obtain ⟨m, h1, h2, _⟩ := fromDn_ok (saneCatalog uuid rt hmem) hd hle
    exact ⟨m, h1, h2⟩

/-- Witness for C2: with the model codec, `BridgeDomain` (arity 2) decodes
`uni/tn-acme/BD-web` to identity `("acme", "web")`, and a malformed path is
rejected with the invalid-path error. -/
theorem from_dn_cases_witness :
    (∃ m, from_dn BridgeDomain decodePath "uni/tn-acme/BD-web" =
        Except.ok m ∧
      identityOf BridgeDomain m =
        ((["acme", "web"].take
            BridgeDomain.identity_attributes.length).map
          (fun s => some (Value.str s)))) ∧
    from_dn BridgeDomain decodePath "garbage" =
      Except.error (ResourceError.invalidDN "garbage" "BridgeDomain") :=
  ⟨(((from_dn_cases "u" BridgeDomain (by decide) (by decide) decodePath
      "uni/tn-acme/BD-web").2 ["acme", "web"] (by decide)).2 (by decide)),
   (from_dn_cases "u" BridgeDomain (by decide) (by decide) decodePath
      "garbage").1 (by decide)⟩

/-- C3: for every hierarchical resource type of identity arity n and any
identity tuple on which the codec's decode inverts its encode, `from_dn`
of the encoded path succeeds and reproduces the tuple positionally as the
instance's ordered identity. -/
theorem encode_decode_roundtrip (uuid : String) (rt : ResourceType)
    (hmem : rt ∈ catalog uuid) (_haci : rt.isAci = true)
    (encode : String → List String → String)
    (decompose : String → String → Except Unit (List String))
    (vs : List String)
    (hlen : vs.length = rt.identity_attributes.length)
    (hcodec : decompose (encode rt.aci_mo_name vs) rt.aci_mo_name =
      Except.ok vs) :
    ∃ m, from_dn rt decompose (encode rt.aci_mo_name vs) = Except.ok m ∧
      identityOf rt m = vs.map (fun s => some (Value.str s)) := by
  obtain ⟨m, h1, h2, _⟩ :=
    fromDn_ok (saneCatalog uuid rt hmem) hcodec (le_of_eq hlen.symm)
  refine ⟨m, h1, ?_⟩
  rw [h2, ← hlen, List.take_length]

/-- Witness for C3: the `BridgeDomain` identity `("acme", "web")` under
mapped class `fvBD` encodes to `uni/tn-acme/BD-web` and decodes back to
`("acme", "web")` in that order. -/
theorem encode_decode_roundtrip_witness :
    encodePath "fvBD" ["acme", "web"] = "uni/tn-acme/BD-web" ∧
    ∃ m, from_dn BridgeDomain decodePath
        (encodePath BridgeDomain.aci_mo_name ["acme", "web"]) =
          Except.ok m ∧
      identityOf BridgeDomain m =
        ["acme", "web"].map (fun s => some (Value.str s)) :=
  ⟨by decide,
   encode_decode_roundtrip "u" BridgeDomain (by decide) (by decide)
     encodePath decodePath ["acme", "web"] (by decide) (by decide)⟩

/-- C4: constructing any resource type with exactly its identity attributes
supplied (any string values) succeeds, and every other/db attribute reads
back the type's declared defaults (with `display_name` defaulted to the
empty string where it is an other attribute); and whenever construction
succeeds, a caller-supplied value for any attribute (identity or not)
always wins over the declared default. -/
theorem defaults_and_overrides (uuid : String) (rt : ResourceType)
    (hmem : rt ∈ catalog uuid) :
    (∀ f : String → String,
      ∃ m, mkResource rt
          (rt.identity_attributes.map fun k => (k, Value.str (f k))) =
            Except.ok m ∧
        ∀ k ∈ rt.other_attributes ++ rt.db_attributes,
          alookup m k = alookup (effDefaults rt) k) ∧
    ∀ kwargs m k v, mkResource rt kwargs = Except.ok m →
      k ≠ "_set_default" → lookupLast kwargs k = some v →
      alookup m k = some v := by
  have hs := saneCatalog uuid rt hmem
  constructor
  · intro f
    have hkeys : (rt.identity_attributes.map
        fun k => (k, Value.str (f k))).map Prod.fst =
          rt.identity_attributes := by
      rw [List.map_map]
      exact List.map_id _
    have hvals : ∀ p ∈ rt.identity_attributes.map
        fun k => (k, Value.str (f k)), p.2 ≠ Value.none := by
      intro p hp
      obtain ⟨k, _, he⟩ := List.mem_map.mp hp
      rw [← he]
      simp
    obtain ⟨m, h1, _, h3⟩ := mk_identity_kwargs hs hkeys hvals
    exact ⟨m, h1, h3⟩
  · intro kwargs m k v hm hk hv
    by_cases hu : unsetOf rt kwargs = []
    · rw [mkResource_ok hs.1 hu] at hm
      injection hm with hme
      subst hme
      rw [alookup_applyAll_nil, lookupLast_append]
      have h1 : lookupLast (kwargs.filter fun p => p.1 ≠ "_set_default") k =
          some v := by
        rw [lookupLast_filter_ne hk]
        exact hv
      rw [h1]
    · rw [mkResource_error hs.1 hu] at hm
      exact absurd hm (by simp)

/-- Witness for C4: `Tenant(name="acme")` gets `display_name = ""` and
`monitored = False` from the defaults, and `Tenant(name="acme",
monitored=True)` keeps the caller's `monitored`. -/
theorem defaults_and_overrides_witness :
    (∃ m, mkResource Tenant
        (Tenant.identity_attributes.map fun k => (k, Value.str "acme")) =
          Except.ok m ∧
      ∀ k ∈ Tenant.other_attributes ++ Tenant.db_attributes,
        alookup m k = alookup (effDefaults Tenant) k) ∧
    alookup
      [("monitored", Value.bool true), ("display_name", Value.str ""),
       ("name", Value.str "acme")] "monitored" = some (Value.bool true) :=
  ⟨(defaults_and_overrides "u" Tenant (by decide)).1 (fun _ => "acme"),
   (defaults_and_overrides "u" Tenant (by decide)).2
     [("name", Value.str "acme"), ("monitored", Value.bool true)]
     [("monitored", Value.bool true), ("display_name", Value.str ""),
      ("name", Value.str "acme")]
     "monitored" (Value.bool true) (by decide) (by decide) (by decide)⟩

/-- Counterexample for C5: two `Agent` instances with the same `id` but
different `host` values differ in exactly one other-attribute value, yet
compare equal, because `Agent.__eq__` compares only `id`. -/
theorem agent_eq_counterexample :
    mkResource (Agent "u0")
        [("id", Value.str "u1"), ("host", Value.str "h1")] =
      Except.ok
        [("admin_state_up", Value.bool true), ("beat_count", Value.num 0),
         ("id", Value.str "u1"), ("host", Value.str "h1")] ∧
    mkResource (Agent "u0")
        [("id", Value.str "u1"), ("host", Value.str "h2")] =
      Except.ok
        [("admin_state_up", Value.bool true), ("beat_count", Value.num 0),
         ("id", Value.str "u1"), ("host", Value.str "h2")] ∧
    "host" ∈ (Agent "u0").other_attributes ∧
    alookup
        [("admin_state_up", Value.bool true), ("beat_count", Value.num 0),
         ("id", Value.str "u1"), ("host", Value.str "h1")] "host" ≠
      alookup
        [("admin_state_up", Value.bool true), ("beat_count", Value.num 0),
         ("id", Value.str "u1"), ("host", Value.str "h2")] "host" ∧
    (∀ k ∈ attributes (Agent "u0"), k ≠ "host" →
      alookup
          [("admin_state_up", Value.bool true), ("beat_count", Value.num 0),
           ("id", Value.str "u1"), ("host", Value.str "h1")] k =
        alookup
          [("admin_state_up", Value.bool true), ("beat_count", Value.num 0),
           ("id", Value.str "u1"), ("host", Value.str "h2")] k) ∧
    instEq (Agent "u0")
        [("admin_state_up", Value.bool true), ("beat_count", Value.num 0),
         ("id", Value.str "u1"), ("host", Value.str "h1")]
        [("admin_state_up", Value.bool true), ("beat_count", Value.num 0),
         ("id", Value.str "u1"), ("host", Value.str "h2")] = true := by
  decide

/-- C5 (amended): instance equality is reflexive on every instance dict
with distinct keys, and symmetric and transitive for every resource type;
for every type that keeps the base `__dict__` equality (all but `Agent`),
two instances differing in exactly one other-attribute value compare
unequal; `Agent` instead compares by `id` alone, so equal `id` implies
equal instances regardless of other attributes. -/
theorem eq_equivalence_and_one_diff :
    (∀ (rt : ResourceType) (a : AttrMap), KeyNodup a →
      instEq rt a a = true) ∧
    (∀ (rt : ResourceType) (a b : AttrMap), instEq rt a b = instEq rt b a) ∧
    (∀ (rt : ResourceType) (a b c : AttrMap), instEq rt a b = true →
      instEq rt b c = true → instEq rt a c = true) ∧
    (∀ uuid (rt : ResourceType), rt ∈ catalog uuid → rt.eqById = false →
      ∀ (a b : AttrMap) (k : String), k ∈ rt.other_attributes →
        alookup a k ≠ alookup b k →
        (∀ k', k' ≠ k → alookup a k' = alookup b k') →
        instEq rt a b = false) ∧
    ∀ uuid (a b : AttrMap), alookup a "id" = alookup b "id" →
      instEq (Agent uuid) a b = true := by
  refine ⟨?_, ?_, ?_, ?_, ?_⟩
  · intro rt a h
    unfold instEq
    cases he : rt.eqById with
    | false => simpa using dictEq_refl h
    | true => simp
  · intro rt a b
    unfold instEq
    cases he : rt.eqById with
    | false => simpa using dictEq_symm a b
    | true =>
      simp only [if_pos]
      rw [decide_eq_decide]
      exact eq_comm
  · intro rt a b c h1 h2
    unfold instEq at h1 h2 ⊢
    cases he : rt.eqById with
    | false =>
      rw [he] at h1 h2
      simp only [if_neg Bool.false_ne_true] at h1 h2 ⊢
      exact dictEq_trans h1 h2
    | true =>
      rw [he] at h1 h2
      simp only [if_pos, decide_eq_true_eq] at h1 h2 ⊢
      exact h1.trans h2
  · intro uuid rt _hmem hne a b k _hk hab _hrest
    unfold instEq
    rw [hne]
    simp only [if_neg Bool.false_ne_true]
    exact dictEq_false_of_ne hab
  · intro uuid a b h
    unfold instEq
    simp [Agent, h]

/-- Witness for C5 (amended), at concrete instances of `Tenant` and
`Agent`. -/
theorem eq_equivalence_witness :
    instEq Tenant [("name", Value.str "a")] [("name", Value.str "a")] =
        true ∧
    instEq Tenant [("monitored", Value.bool false)]
        [("monitored", Value.bool true)] = false ∧
    instEq (Agent "u0") [("id", Value.str "x")] [("id", Value.str "x")] =
      true :=
  ⟨eq_equivalence_and_one_diff.1 Tenant [("name", Value.str "a")]
      (by decide),
   eq_equivalence_and_one_diff.2.2.2.1 "u" Tenant (by decide) rfl
     [("monitored", Value.bool false)] [("monitored", Value.bool true)]
     "monitored" (by decide) (by decide)
     (by
       intro k' h
       simp [alookup, Ne.symm h]),
   eq_equivalence_and_one_diff.2.2.2.2 "u0" [("id", Value.str "x")]
     [("id", Value.str "x")] rfl⟩

/-- Counterexample for C6: `from_dn` does not suppress default application
(`cls(**attr)` is called without `_set_default=False`): decoding
`uni/tn-acme` for `Tenant` yields an instance whose non-identity attribute
`monitored` is populated with its declared default instead of being left
unpopulated. -/
theorem from_dn_defaults_counterexample :
    from_dn Tenant decodePath "uni/tn-acme" =
      Except.ok
        [("monitored", Value.bool false), ("display_name", Value.str ""),
         ("name", Value.str "acme")] ∧
    "monitored" ∈ Tenant.other_attributes ∧
    "monitored" ∉ Tenant.identity_attributes ∧
    alookup
      [("monitored", Value.bool false), ("display_name", Value.str ""),
       ("name", Value.str "acme")] "monitored" ≠ Option.none := by
  decide

/-- C6 (amended): instances produced by `from_dn` are constructed with
default application enabled: the decoded identity values are authoritative
for the identity attributes, and the non-identity (other/db) attributes
receive the type's declared defaults. The `_set_default` construction flag
does exist and, when a caller passes it as `False`, suppresses default
application so that only the caller's values are set — but `from_dn` does
not pass it. -/
theorem from_dn_applies_defaults :
    (∀ uuid (rt : ResourceType), rt ∈ catalog uuid → rt.isAci = true →
      ∀ (decompose : String → String → Except Unit (List String)) dn rns,
        decompose dn rt.aci_mo_name = Except.ok rns →
        rns.length = rt.identity_attributes.length →
        ∃ m, from_dn rt decompose dn = Except.ok m ∧
          identityOf rt m = rns.map (fun s => some (Value.str s)) ∧
          ∀ k ∈ rt.other_attributes ++ rt.db_attributes,
            alookup m k = alookup (effDefaults rt) k) ∧
    ∀ (rt : ResourceType) (kwargs : AttrMap),
      (rt.isAci = true →
        rt.has_tree_parent = true ∧ rt.has_aci_mo_name = true) →
      alookup kwargs "_set_default" = some (Value.bool false) →
      unsetOf rt kwargs = [] →
      mkResource rt kwargs =
        Except.ok (applyAll []
          (kwargs.filter fun p => p.1 ≠ "_set_default")) := by
  constructor
  · intro uuid rt hmem _haci decompose dn rns hd hlen
    obtain ⟨m, h1, h2, h3⟩ :=
      fromDn_ok (saneCatalog uuid rt hmem) hd (le_of_eq hlen.symm)
    refine ⟨m, h1, ?_, h3⟩
    rw [h2, ← hlen, List.take_length]
  · intro rt kwargs ha hsd hu
    have h := mkResource_ok ha hu
    rw [hsd] at h
    simpa using h

/-- Witness for C6 (amended): decoding `uni/tn-acme` for `Tenant` populates
`monitored` and `display_name` with the defaults, and constructing with
`_set_default=False` sets only the caller's values. -/
theorem from_dn_applies_defaults_witness :
    (∃ m, from_dn Tenant decodePath "uni/tn-acme" = Except.ok m ∧
      identityOf Tenant m = ["acme"].map (fun s => some (Value.str s)) ∧
      ∀ k ∈ Tenant.other_attributes ++ Tenant.db_attributes,
        alookup m k = alookup (effDefaults Tenant) k) ∧
    mkResource Tenant
        [("name", Value.str "acme"), ("_set_default", Value.bool false)] =
      Except.ok (applyAll []
        ([("name", Value.str "acme"), ("_set_default", Value.bool false)].filter
          fun p => p.1 ≠ "_set_default")) :=
  ⟨from_dn_applies_defaults.1 "u" Tenant (by decide) (by decide) decodePath
     "uni/tn-acme" ["acme"] (by decide) (by decide),
   from_dn_applies_defaults.2 Tenant
     [("name", Value.str "acme"), ("_set_default", Value.bool false)]
     (by decide) (by decide) (by decide)⟩

/-- C7: `attributes()` is deterministic — in this pure embedding it is a
function of the type alone, so it returns the same ordered sequence on
every call — and for every declared resource type it equals the identity
keys followed by the other keys followed by the db keys, with no duplicate
names. -/
theorem attributes_ordered_nodup (uuid : String) (rt : ResourceType)
    (hmem : rt ∈ catalog uuid) :
    attributes rt =
        rt.identity_attributes ++ rt.other_attributes ++
          rt.db_attributes ∧
      (attributes rt).Nodup := by
  refine ⟨rfl, ?_⟩
  simp only [catalog, List.mem_cons, List.not_mem_nil, or_false] at hmem
  rcases hmem with rfl | rfl | rfl | rfl | rfl | rfl | rfl | rfl | rfl |
    rfl | rfl | rfl | rfl | rfl | rfl | rfl | rfl | rfl | rfl | rfl
  case inr.inr.inl =>
    show (["id"] ++
      ["agent_type", "host", "binary_file", "admin_state_up", "description",
       "hash_trees", "beat_count", "version"] ++
      ["heartbeat_timestamp"] : List String).Nodup
    decide
  all_goals decide

/-- Witness for C7 at `Tenant`. -/
theorem attributes_ordered_nodup_witness :
    attributes Tenant =
        Tenant.identity_attributes ++ Tenant.other_attributes ++
          Tenant.db_attributes ∧
      (attributes Tenant).Nodup :=
  attributes_ordered_nodup "u" Tenant (by decide)

/-- C8: construction is atomic — whenever `__init__` raises the
identity-attributes-missing error, the list of `setattr` assignments it has
performed is empty (the raise precedes both assignment loops). -/
theorem construction_atomic (rt : ResourceType) (kwargs : AttrMap)
    (l : List String)
    (h : (mkResourceRun rt kwargs).2 =
      some (ResourceError.identityAttributesMissing l)) :
    (mkResourceRun rt kwargs).1 = [] := by
  unfold mkResourceRun resourceInitRun at h ⊢
  by_cases haci : rt.isAci <;>
    by_cases h1 : rt.has_tree_parent <;>
    by_cases h2 : rt.has_aci_mo_name <;>
    by_cases hu : (unsetOf rt kwargs).isEmpty <;>
    simp [haci, h1, h2, hu] at h ⊢

/-- Witness for C8: `Tenant()` with no arguments fails, and the failing run
performed no assignment. -/
theorem construction_atomic_witness :
    (mkResourceRun Tenant []).1 = [] :=
  construction_atomic Tenant [] ["name"] (by decide)

/-- C9: the string representation is the type name around the comma-joined
identity values in declaration order — it depends only on the identity
attributes, never on other/db attributes — and `Tenant(name="acme")` has
identity `["acme"]`, `display_name` `""`, `monitored` `False`, and string
representation `"Tenant(acme)"`. -/
theorem str_repr_identity_only :
    (∀ (rt : ResourceType) (a b : AttrMap),
      (∀ k ∈ rt.identity_attributes, alookup a k = alookup b k) →
      strRepr rt a = strRepr rt b) ∧
    ∃ m, mkResource Tenant [("name", Value.str "acme")] = Except.ok m ∧
      identityOf Tenant m = [some (Value.str "acme")] ∧
      alookup m "display_name" = some (Value.str "") ∧
      alookup m "monitored" = some (Value.bool false) ∧
      strRepr Tenant m = some "Tenant(acme)" := by
  constructor
  · intro rt a b h
    unfold strRepr identityOf
    rw [List.map_congr_left h]
  · exact ⟨[("monitored", Value.bool false), ("display_name", Value.str ""),
      ("name", Value.str "acme")], by decide, by decide, by decide,
      by decide, by decide⟩

/-- Witness for C9: the representation is unchanged by other-attribute
changes. -/
theorem str_repr_identity_only_witness :
    strRepr Tenant
        [("name", Value.str "acme"), ("monitored", Value.bool false)] =
      strRepr Tenant
        [("name", Value.str "acme"), ("monitored", Value.bool true)] :=
  str_repr_identity_only.1 Tenant
    [("name", Value.str "acme"), ("monitored", Value.bool false)]
    [("name", Value.str "acme"), ("monitored", Value.bool true)]
    (by decide)
